import Mathlib

/-
Verification of the ACS object-file inspector (src/main.c).

Shallow embedding: the object file is a `List Nat` of byte values; C `int`
values are `Int` (4-byte reads wrap at 2^32 and are sign-extended); the
longjmp-based `bail` of the source is an `Except Err` error value.  The
definitions follow the source functions of the same names.
-/

namespace AcsObjDump

/-- Read one byte of the object buffer.  In the C source reads are raw pointer
dereferences; out-of-range model reads return 0 (the theorems below only
depend on in-range reads, except where an out-of-range dereference is itself
the point, and is then stated explicitly). -/
def byteAt (data : List Nat) (i : Int) : Nat :=
  if i < 0 then 0 else data.getD i.toNat 0

/-- Little-endian 32-bit read, as done by `memcpy` into an `int` on the
little-endian hosts the source targets. -/
def read_u32 (data : List Nat) (i : Int) : Nat :=
  byteAt data i + 256 * byteAt data (i + 1) + 65536 * byteAt data (i + 2) +
    16777216 * byteAt data (i + 3)

/-- Reinterpret an unsigned 32-bit value as a signed C `int`. -/
def toI32 (v : Nat) : Int :=
  if v < 2147483648 then (v : Int) else (v : Int) - 4294967296

def read_i32 (data : List Nat) (i : Int) : Int := toI32 (read_u32 data i)

def read_u16 (data : List Nat) (i : Int) : Nat :=
  byteAt data i + 256 * byteAt data (i + 1)

/-- Reinterpret an unsigned 16-bit value as a signed C `short`. -/
def toI16 (v : Nat) : Int :=
  if v < 32768 then (v : Int) else (v : Int) - 65536

def read_i16 (data : List Nat) (i : Int) : Int := toI16 (read_u16 data i)

/-- Errors: `bail` models the longjmp to the top-level recovery point;
`fuelOut` is a model artifact marking exhausted fuel of a loop the C source
runs without bound (it never occurs in the evaluations below). -/
inductive Err where
  | bail : Err
  | fuelOut : Err
deriving Repr, DecidableEq

inductive Format where
  | unknown : Format
  | zero : Format
  | bigE : Format
  | littleE : Format
deriving Repr, DecidableEq

/-- The `struct object` descriptor fields populated by the resolver (the
buffer itself and its size are passed separately; `size` is always the length
of the data list). -/
structure ACSObject where
  format : Format
  directory_offset : Int
  string_offset : Int
  real_header_offset : Int
  chunk_offset : Int
  indirect_format : Bool
  small_code : Bool
deriving Repr, DecidableEq

/-- Field values set by `init_object`. -/
def init_object : ACSObject :=
  { format := .unknown, directory_offset := 0, string_offset := 0,
    real_header_offset := 0, chunk_offset := 0, indirect_format := false,
    small_code := false }

/-- Function `data_left` of the source: bytes from position `pos` to the end
of the buffer (negative when `pos` is past the end). -/
def data_left (data : List Nat) (pos : Int) : Int :=
  (data.length : Int) - pos

/-- Function `offset_in_object_file` of the source (via `offset_in_range`
with the whole buffer): `0 <= offset < N`. -/
def offset_in_object_file (data : List Nat) (offset : Int) : Bool :=
  decide (0 ≤ offset) && decide (offset < (data.length : Int))

/-- The four bytes starting at position `i` (magic ids and chunk names). -/
def idBytesAt (data : List Nat) (i : Int) : List Nat :=
  [byteAt data i, byteAt data (i + 1), byteAt data (i + 2), byteAt data (i + 3)]

/-- ASCII bytes of the magic "ACSE". -/
def idACSE : List Nat := [65, 67, 83, 69]

/-- ASCII bytes of the magic "ACSe". -/
def idACSe : List Nat := [65, 67, 83, 101]

/-- ASCII bytes of the magic "ACS\0". -/
def idACS0 : List Nat := [65, 67, 83, 0]

/-- Function `peek_real_id` of the source: look 4 bytes below the directory
offset of the primary header for a hidden "ACSE"/"ACSe" magic. -/
def peek_real_id (data : List Nat) (header_offset : Int) : Bool :=
  let offset := header_offset - 4
  offset_in_object_file data offset &&
    (idBytesAt data offset == idACSE || idBytesAt data offset == idACSe)

/-- Function `determine_format` of the source, part one: the classification
of the magic id, with `obj.directory_offset` already holding the primary
header offset (in range by the check in `determine_format` below).  In the
indirect branch the magic sits at `header.offset - 4` and the hidden
chunk-offset slot at `header.offset - 8`; the slot position is checked to be
in the file, but the `chunk_offset` value read out of it is stored without
any bounds check. -/
def determine_format_id (data : List Nat) : Except Err ACSObject :=
  if idBytesAt data 0 = idACSE ∨ idBytesAt data 0 = idACSe then
    .ok { init_object with
      format := if byteAt data 3 == 69 then Format.bigE else Format.littleE,
      directory_offset := read_i32 data 4,
      chunk_offset := read_i32 data 4 }
  else if idBytesAt data 0 = idACS0 then
    if peek_real_id data (read_i32 data 4) then
      if ¬ offset_in_object_file data (read_i32 data 4 - 4 - 4) then
        .error .bail
      else
        .ok { init_object with
          format := if byteAt data (read_i32 data 4 - 4 + 3) == 69 then
            Format.bigE else Format.littleE,
          directory_offset := read_i32 data 4,
          real_header_offset := read_i32 data 4 - 4 - 4,
          chunk_offset := read_i32 data (read_i32 data 4 - 4 - 4),
          indirect_format := true }
    else
      .ok { init_object with
        format := Format.zero,
        directory_offset := read_i32 data 4 }
  else
    .ok { init_object with directory_offset := read_i32 data 4 }

/-- Function `determine_format` of the source, part two: the header-size and
directory-offset checks, the classification, and the final `small_code`
flag. -/
def determine_format (data : List Nat) : Except Err ACSObject :=
  if data_left data 0 < 8 then .error .bail
  else if ¬ offset_in_object_file data (read_i32 data 4) then .error .bail
  else
    match determine_format_id data with
    | .error e => .error e
    | .ok obj =>
      .ok (if obj.format = Format.littleE then
        { obj with small_code := true } else obj)

/-- Function `script_directory_present` of the source. -/
def script_directory_present (obj : ACSObject) : Bool :=
  match obj.format with
  | .bigE | .littleE => obj.indirect_format
  | .zero => true
  | .unknown => false

/-- Function `determine_object_offsets` of the source: locate the string
directory behind the script directory. -/
def determine_object_offsets (data : List Nat) (obj : ACSObject) :
    Except Err ACSObject :=
  if script_directory_present obj then
    if data_left data obj.directory_offset < 4 then .error .bail
    else if ¬ offset_in_object_file data
        (obj.directory_offset + 4 + read_i32 data obj.directory_offset * 12)
      then .error .bail
    else
      .ok { obj with string_offset :=
        obj.directory_offset + 4 + read_i32 data obj.directory_offset * 12 }
  else .ok obj

/-- The complete format resolver: `determine_format` followed by
`determine_object_offsets`, as run by `perform_operation`. -/
def resolve_object (data : List Nat) : Except Err ACSObject :=
  match determine_format data with
  | .error e => .error e
  | .ok obj => determine_object_offsets data obj

inductive ChunkType where
  | unknown | aray | aini | aimp | astr | mstr | atag | load | func | fnam
  | mini | mimp | mexp | sptr | sflg | svct | snam | strl | stre | sary
  | fary | alib
deriving Repr, DecidableEq

/-- The `toupper` conversion applied by `get_chunk_type` to ASCII bytes. -/
def c_toupper (b : Nat) : Nat :=
  if 97 ≤ b ∧ b ≤ 122 then b - 32 else b

/-- Function `get_chunk_type` of the source: case-insensitive lookup of the
four-byte chunk name (the entries are the ASCII bytes of the upper-case
names). -/
def get_chunk_type (name : List Nat) : ChunkType :=
  let b := name.map c_toupper
  if b = [65, 82, 65, 89] then .aray
  else if b = [65, 73, 78, 73] then .aini
  else if b = [65, 73, 77, 80] then .aimp
  else if b = [65, 83, 84, 82] then .astr
  else if b = [77, 83, 84, 82] then .mstr
  else if b = [65, 84, 65, 71] then .atag
  else if b = [76, 79, 65, 68] then .load
  else if b = [70, 85, 78, 67] then .func
  else if b = [70, 78, 65, 77] then .fnam
  else if b = [77, 73, 78, 73] then .mini
  else if b = [77, 73, 77, 80] then .mimp
  else if b = [77, 69, 88, 80] then .mexp
  else if b = [83, 80, 84, 82] then .sptr
  else if b = [83, 70, 76, 71] then .sflg
  else if b = [83, 86, 67, 84] then .svct
  else if b = [83, 78, 65, 77] then .snam
  else if b = [83, 84, 82, 76] then .strl
  else if b = [83, 84, 82, 69] then .stre
  else if b = [83, 65, 82, 89] then .sary
  else if b = [70, 65, 82, 89] then .fary
  else if b = [65, 76, 73, 66] then .alib
  else .unknown

/-- A materialized chunk: the `struct chunk` of the source, with the body
pointer replaced by its offset into the object buffer. -/
structure Chunk where
  name : List Nat
  data_offset : Int
  size : Int
  type : ChunkType
deriving Repr, DecidableEq

/-- Function `init_chunk` of the source: read the 8-byte chunk header at
`offset` and check the declared body lies within the file.  Note the declared
`size` is a signed `int` read from the file; `expect_data` does not reject a
negative size (the `left < size` test passes). -/
def init_chunk (data : List Nat) (offset : Int) : Except Err Chunk := do
  if data_left data offset < 8 then throw .bail
  let name := idBytesAt data offset
  let size := read_i32 data (offset + 4)
  if data_left data (offset + 8) < size then throw .bail
  pure { name := name, data_offset := offset + 8, size := size,
         type := get_chunk_type name }

/-- The loop guard of `read_chunk` in the source compares the `int`
difference `end_pos - pos` with `sizeof(struct chunk_header)`, which is a
`size_t`: the signed difference is converted to an unsigned integer, so a
negative difference compares as a huge value and the guard stays true. -/
def read_chunk_cond (end_pos pos : Int) : Bool :=
  decide (8 ≤ end_pos - pos) || decide (end_pos - pos < 0)

/-- The end position used by `init_chunk_reader` in the source. -/
def chunk_end_pos (data : List Nat) (obj : ACSObject) : Int :=
  if obj.indirect_format then obj.real_header_offset else (data.length : Int)

/-- One iteration of `read_chunk` of the source: `none` when the walk stops,
otherwise the materialized chunk and the advanced cursor
`pos + 8 + chunk.size` (the declared size, signed). -/
def read_chunk (data : List Nat) (end_pos pos : Int) :
    Except Err (Option (Chunk × Int)) :=
  if read_chunk_cond end_pos pos then do
    let chunk ← init_chunk data pos
    pure (some (chunk, pos + 8 + chunk.size))
  else
    pure none

/-- Cursor of the chunk walker after `n` iterations: `some pos` while the
walk is still running, `none` once the guard has stopped it. -/
def walk_cursor (data : List Nat) (end_pos : Int) :
    Nat → Int → Except Err (Option Int)
  | 0, pos => pure (some pos)
  | n + 1, pos => do
    match ← read_chunk data end_pos pos with
    | some (_, next) => walk_cursor data end_pos n next
    | none => pure none

/-- Function `find_chunk` of the source: restart the walk and return the
first chunk whose raw name equals `name` (strcmp against a NUL-free 4-byte
pattern is 4-byte equality).  `fuel` bounds the iterations of the model. -/
def find_chunk (data : List Nat) (end_pos : Int) (name : List Nat) :
    Nat → Int → Except Err (Option Chunk)
  | 0, _ => throw .fuelOut
  | n + 1, pos => do
    match ← read_chunk data end_pos pos with
    | some (chunk, next) =>
      if chunk.name = name then pure (some chunk)
      else find_chunk data end_pos name n next
    | none => pure none

/-- The common projection filled by `read_acse_script_entry`. -/
structure CommonAcseScriptEntry where
  number : Int
  type : Int
  num_param : Int
  offset : Int
  real_entry_size : Int
deriving Repr, DecidableEq

/-- Function `chunk_data_left` of the source, with the position expressed
relative to the chunk body. -/
def chunk_data_left (chunk : Chunk) (pos : Int) : Int :=
  chunk.size - pos

/-- Size of the raw script-table entry struct chosen by
`read_acse_script_entry`: 8 bytes for the compact indirect layout, 12 bytes
for the direct layout. -/
def acse_entry_size (indirect : Bool) : Int :=
  if indirect then 8 else 12

/-- Function `read_acse_script_entry` of the source.  Indirect layout:
`(number: i16, type: u8, num_param: u8, offset: i32)`; direct layout:
`(number: i16, type: i16, offset: i32, num_param: i32)`.  `pos` is relative
to the chunk body; `expect_chunk_data` bails when the entry does not fit in
the chunk. -/
def read_acse_script_entry (data : List Nat) (indirect : Bool) (chunk : Chunk)
    (pos : Int) : Except Err CommonAcseScriptEntry :=
  let base := chunk.data_offset + pos
  if indirect then
    if chunk_data_left chunk pos < 8 then throw .bail else
    pure { number := read_i16 data base,
           type := (byteAt data (base + 2) : Int),
           num_param := (byteAt data (base + 3) : Int),
           offset := read_i32 data (base + 4),
           real_entry_size := 8 }
  else
    if chunk_data_left chunk pos < 12 then throw .bail else
    pure { number := read_i16 data base,
           type := read_i16 data (base + 2),
           num_param := read_i32 data (base + 8),
           offset := read_i32 data (base + 4),
           real_entry_size := 12 }

/-- The `struct func_entry` of the source:
`(num_param: u8, size: u8, has_return: u8, padding: u8, offset: i32)`. -/
structure FuncEntry where
  num_param : Nat
  size : Nat
  has_return : Nat
  padding : Nat
  offset : Int
deriving Repr, DecidableEq

/-- Read one 8-byte function-table entry at absolute position `base`
(`memcpy` without a bounds check in the source; the loop bound keeps the
reads inside the chunk). -/
def read_func_entry (data : List Nat) (base : Int) : FuncEntry :=
  { num_param := byteAt data base,
    size := byteAt data (base + 1),
    has_return := byteAt data (base + 2),
    padding := byteAt data (base + 3),
    offset := read_i32 data (base + 4) }

/-- The SPTR scan of `calc_code_size`: walk the script-table entries and
lower `end_offset` to any entry offset strictly between `offset` and the
current `end_offset`.  The first argument counts the remaining loop
iterations of the model: every iteration advances the position by at least 8
bytes, so a count of `chunk.size.toNat + 1` (used by the caller below) is
always enough and the `fuelOut` case is unreachable. -/
def calc_sptr_scan (data : List Nat) (indirect : Bool) (chunk : Chunk)
    (offset : Int) : Nat → Int → Int → Except Err Int
  | 0, pos, end_offset =>
    if pos < chunk.size then .error .fuelOut else .ok end_offset
  | n + 1, pos, end_offset =>
    if pos < chunk.size then
      match read_acse_script_entry data indirect chunk pos with
      | .error e => .error e
      | .ok entry =>
        calc_sptr_scan data indirect chunk offset n
          (pos + acse_entry_size indirect)
          (if entry.offset > offset ∧ entry.offset < end_offset then
            entry.offset else end_offset)
    else .ok end_offset

/-- One candidate step of the FUNC scan of `calc_code_size`. -/
def func_candidate (data : List Nat) (chunk : Chunk) (offset : Int)
    (end_offset : Int) (i : Nat) : Int :=
  let e := read_func_entry data (chunk.data_offset + 8 * i)
  if e.offset > offset ∧ e.offset < end_offset then e.offset else end_offset

/-- The FUNC scan of `calc_code_size`: `total_funcs = chunk.size / 8`
(C division truncates toward zero; a negative size gives no iterations). -/
def calc_func_scan (data : List Nat) (chunk : Chunk) (offset : Int)
    (end_offset : Int) : Int :=
  (List.range (chunk.size.tdiv 8).toNat).foldl
    (func_candidate data chunk offset) end_offset

/-- One candidate step of the script-directory scan of `calc_code_size`
(`acs0_script_entry` is 12 bytes with its `offset` field at byte 4). -/
def acs0_candidate (data : List Nat) (offset : Int) (base : Int)
    (end_offset : Int) (i : Nat) : Int :=
  let o := read_i32 data (base + 12 * i + 4)
  if o > offset ∧ o < end_offset then o else end_offset

/-- The script-directory scan of `calc_code_size` (no bounds checks in the
source: the count and the entries are read with plain `memcpy`). -/
def calc_dir_scan (data : List Nat) (directory_offset : Int) (offset : Int)
    (end_offset : Int) : Int :=
  let count := read_i32 data directory_offset
  (List.range count.toNat).foldl
    (acs0_candidate data offset (directory_offset + 4)) end_offset

/-- One candidate step of the string-directory scan of `calc_code_size`. -/
def string_candidate (data : List Nat) (offset : Int) (base : Int)
    (end_offset : Int) (i : Nat) : Int :=
  let o := read_i32 data (base + 4 * i)
  if o > offset ∧ o < end_offset then o else end_offset

/-- The string-directory scan of `calc_code_size`. -/
def calc_string_scan (data : List Nat) (string_offset : Int) (offset : Int)
    (end_offset : Int) : Int :=
  let count := read_i32 data string_offset
  (List.range count.toNat).foldl
    (string_candidate data offset (string_offset + 4)) end_offset

/-- ASCII bytes of "SPTR". -/
def nameSPTR : List Nat := [83, 80, 84, 82]

/-- ASCII bytes of "FUNC". -/
def nameFUNC : List Nat := [70, 85, 78, 67]

/-- The script- and string-directory candidate stage of `calc_code_size`
(both scans run only when a script directory is present). -/
def calc_code_size_dirs (data : List Nat) (obj : ACSObject) (offset : Int)
    (e2 : Int) : Int :=
  if script_directory_present obj then
    calc_string_scan data obj.string_offset offset
      (calc_dir_scan data obj.directory_offset offset e2)
  else e2

/-- The chunk-section-offset candidate of `calc_code_size`: for the chunked
formats the source takes `chunk_offset` whenever it is below the current end
offset, without comparing it with the target `offset`. -/
def calc_code_size_mid (data : List Nat) (obj : ACSObject) (offset : Int)
    (e2 : Int) : Int :=
  if (obj.format == Format.bigE || obj.format == Format.littleE)
      ∧ obj.chunk_offset < calc_code_size_dirs data obj offset e2 then
    obj.chunk_offset
  else calc_code_size_dirs data obj offset e2

/-- The directory-offset candidate of `calc_code_size`, again taken whenever
it is below the current end offset, without comparing it with `offset`. -/
def calc_code_size_tail (data : List Nat) (obj : ACSObject) (offset : Int)
    (e2 : Int) : Int :=
  if script_directory_present obj
      ∧ obj.directory_offset < calc_code_size_mid data obj offset e2 then
    obj.directory_offset
  else calc_code_size_mid data obj offset e2

/-- The SPTR stage of `calc_code_size`: for the chunked formats, find the
SPTR chunk and lower the end offset (initially the file size) to adjacent
script offsets. -/
def calc_code_size_sptr_part (fuel : Nat) (data : List Nat)
    (obj : ACSObject) (offset : Int) : Except Err Int :=
  if obj.format == Format.bigE || obj.format == Format.littleE then
    match find_chunk data (chunk_end_pos data obj) nameSPTR fuel
        obj.chunk_offset with
    | .error e => .error e
    | .ok (some chunk) =>
      calc_sptr_scan data obj.indirect_format chunk offset
        (chunk.size.toNat + 1) 0 ((data.length : Int))
    | .ok none => .ok ((data.length : Int))
  else .ok ((data.length : Int))

/-- The FUNC stage of `calc_code_size`: for the chunked formats, find the
FUNC chunk and lower the end offset to adjacent function offsets. -/
def calc_code_size_func_part (fuel : Nat) (data : List Nat)
    (obj : ACSObject) (offset : Int) (e1 : Int) : Except Err Int :=
  if obj.format == Format.bigE || obj.format == Format.littleE then
    match find_chunk data (chunk_end_pos data obj) nameFUNC fuel
        obj.chunk_offset with
    | .error er => .error er
    | .ok (some chunk) => .ok (calc_func_scan data chunk offset e1)
    | .ok none => .ok e1
  else .ok e1

/-- Function `calc_code_size` of the source.  `end_offset` starts at the file
size and is lowered by the SPTR, FUNC, script-directory and string-directory
candidates (each only when strictly above `offset`), and finally by the
chunk-section offset and the directory offset, which the source takes
whenever they are below the current end offset, without comparing them with
`offset`. -/
def calc_code_size (fuel : Nat) (data : List Nat) (obj : ACSObject)
    (offset : Int) : Except Err Int :=
  match calc_code_size_sptr_part fuel data obj offset with
  | .error e => .error e
  | .ok e1 =>
    match calc_code_size_func_part fuel data obj offset e1 with
    | .error e => .error e
    | .ok e2 => .ok (calc_code_size_tail data obj offset e2 - offset)

/-- The `struct pcode_segment` of the source, with both pointers replaced by
offsets: `offset` is the file offset of the segment start (`data_start`) and
`cursor` is `data - data_start`. -/
structure PcodeSegment where
  offset : Int
  cursor : Int
  code_size : Int
  opcode : Nat
  invalid_opcode : Bool
deriving Repr, DecidableEq

/-- Function `init_pcode_segment` of the source (PCD_NOP is opcode 0). -/
def init_pcode_segment (offset code_size : Int) : PcodeSegment :=
  { offset := offset, cursor := 0, code_size := code_size, opcode := 0,
    invalid_opcode := false }

/-- Function `pcode_segment_end` of the source. -/
def pcode_segment_end (s : PcodeSegment) : Bool :=
  decide (s.code_size ≤ s.cursor) || s.invalid_opcode

/-- Bytes left in the segment, as computed by `expect_pcode_data`. -/
def pcode_left (s : PcodeSegment) : Int :=
  s.code_size - s.cursor

/-- Read past `k` argument bytes: `expect_pcode_data` followed by advancing
the cursor (the argument values are printed and not otherwise used). -/
def pc_read_bytes (s : PcodeSegment) (k : Nat) : Except Err PcodeSegment :=
  if pcode_left s < (k : Int) then throw .bail
  else pure { s with cursor := s.cursor + (k : Int) }

/-- Value of PCD_TOTAL in the source: 385 opcodes are declared by the enum.
Note the `g_pcodes` table below has only 383 rows; an opcode id of 383 or 384
passes the validity test of `show_opcode` but indexes past the table (the
model reads 0 arguments for it). -/
def PCD_TOTAL : Nat := 385

/-- Argument counts of the `g_pcodes` table from the source (383 entries;
the mnemonic strings are an external collaborator and are omitted). -/
def g_pcodes_num_args : List Nat := [
  0, 0, 0, 1, 1, 1, 1, 1, 1, 2, 3, 4, 5, 6, 0, 0, 0, 0, 0, 0,
  0, 0, 0, 0, 0, 1, 1, 1, 1, 1, 1, 1, 1, 1, 1, 1, 1, 1, 1, 1,
  1, 1, 1, 1, 1, 1, 1, 1, 1, 1, 1, 1, 1, 1, 0, 0, 1, 0, 2, 0,
  2, 0, 1, 0, 1, 0, 2, 0, 2, 0, 0, 0, 0, 0, 0, 0, 0, 0, 0, 1,
  0, 0, 1, 0, 2, 0, 0, 0, 0, 0, 0, 0, 0, 0, 0, 0, 0, 0, 0, 0,
  0, 0, 0, 0, 0, 0, 0, 0, 0, 0, 0, 0, 0, 0, 0, 0, 0, 0, 0, 0,
  0, 0, 0, 0, 0, 0, 0, 0, 0, 0, 0, 0, 0, 3, 0, 0, 0, 0, 0, 1,
  0, 1, 0, 0, 2, 0, 2, 0, 1, 0, 6, 0, 4, 0, 3, 0, 3, 0, 0, 0,
  0, 0, 0, 0, 0, 0, 1, 1, 2, 3, 4, 5, 6, 1, 2, 2, 3, 4, 5, 0,
  1, 1, 1, 1, 1, 1, 1, 1, 1, 0, 0, 0, 0, 0, 0, 0, 0, 0, 0, 0,
  0, 0, 1, 1, 0, 0, 1, 1, 1, 1, 1, 1, 1, 1, 1, 0, 0, 0, 0, 0,
  0, 0, 0, 0, 0, 1, 1, 1, 1, 1, 1, 1, 1, 1, 1, 1, 1, 1, 1, 1,
  1, 1, 1, 0, 0, 0, 0, 0, 0, 0, 0, 0, 0, 0, 0, 0, 0, 0, 0, 0,
  0, 1, 0, 0, 0, 0, 0, 0, 0, 0, 0, 0, 0, 0, 0, 0, 0, 0, 0, 0,
  0, 0, 0, 0, 0, 0, 0, 0, 0, 1, 1, 1, 1, 1, 1, 1, 1, 1, 1, 1,
  1, 1, 1, 1, 1, 1, 1, 1, 1, 1, 1, 1, 1, 1, 1, 1, 1, 1, 1, 1,
  1, 1, 1, 1, 0, 0, 0, 0, 0, 0, 0, 0, 0, 0, 0, 0, 0, 0, 0, 0,
  0, 0, 0, 0, 0, 0, 0, 0, 0, 2, 0, 0, 0, 0, 0, 0, 0, 1, 0, 0,
  0, 0, 1, 1, 1, 1, 1, 1, 1, 1, 1, 1, 1, 1, 1, 1, 0, 0, 0, 1,
  1, 0, 0]

/-- Opcode ids of the first `case` group of `show_args` in the source: the
one-integer-argument instructions (argument width depends on `small_code`). -/
def one_arg_opcodes : List Nat := [
  4, 5, 6, 7, 8, 25, 26, 27, 28, 29, 30, 31, 32, 33, 34, 35, 36, 37, 38, 39,
  40, 41, 42, 43, 44, 45, 46, 47, 48, 49, 50, 51, 181, 182, 183, 184, 185, 186, 187, 188,
  189, 203, 204, 207, 208, 209, 210, 211, 212, 213, 214, 215, 226, 227, 228, 229, 230, 231, 232, 233,
  234, 235, 236, 237, 238, 239, 240, 241, 242, 243, 263, 291, 292, 294, 295, 296, 297, 298, 299, 300,
  301, 302, 303, 304, 305, 306, 307, 308, 309, 310, 311, 312, 313, 314, 315, 316, 317, 318, 319, 320,
  321, 322, 323, 324, 325, 359, 364, 365, 366, 367, 368, 369, 370, 371, 372, 373, 374, 375, 376, 377]

/-- Validity test at the end of `show_opcode`: an opcode outside
`[PCD_NOP, PCD_TOTAL)` sets `invalid_opcode`; a valid one is stored in the
segment. -/
def validate_opcode (op : Int) (s : PcodeSegment) : Int × PcodeSegment :=
  if 0 ≤ op ∧ op < (PCD_TOTAL : Int) then (op, { s with opcode := op.toNat })
  else (op, { s with invalid_opcode := true })

/-- Function `show_opcode` of the source.  Compact (`small_code`) encoding:
read one byte `b`; the opcode is `b`, unless `b` is at least 240, in which
case a second byte is read and added to `b`.  Wide encoding: one signed
32-bit read.  Returns the decoded opcode value together with the updated
segment. -/
def show_opcode (data : List Nat) (small_code : Bool) (s : PcodeSegment) :
    Except Err (Int × PcodeSegment) :=
  if small_code then
    if pcode_left s < 1 then throw .bail else
    let b := byteAt data (s.offset + s.cursor)
    let s := { s with cursor := s.cursor + 1 }
    if 240 ≤ b then
      if pcode_left s < 1 then throw .bail else
      let c := byteAt data (s.offset + s.cursor)
      pure (validate_opcode ((b + c : Nat) : Int)
        { s with cursor := s.cursor + 1 })
    else
      pure (validate_opcode (b : Int) s)
  else
    if pcode_left s < 4 then throw .bail else
    pure (validate_opcode (read_i32 data (s.offset + s.cursor))
      { s with cursor := s.cursor + 4 })

/-- The case loop of the CASEGOTOSORTED decoder: each case reads a 4-byte
value and a 4-byte target, each preceded by `expect_pcode_data`. -/
def case_goto_pairs (k : Nat) (s : PcodeSegment) : Except Err PcodeSegment :=
  match k with
  | 0 => pure s
  | k + 1 =>
    match pc_read_bytes s 4 with
    | .error e => .error e
    | .ok s => match pc_read_bytes s 4 with
      | .error e => .error e
      | .ok s => case_goto_pairs k s

/-- The PCD_CASEGOTOSORTED branch of `show_args`.  The source aligns on the
absolute file position: `remainder = (segment->offset + cursor) % sizeof(int)`
(an `int` modulo a `size_t`, so the left side converts to unsigned; since
2^64 is divisible by 4 the result is the nonnegative remainder), pads by
`4 - remainder` when the remainder is positive, then reads the 4-byte case
count and the case pairs. -/
def show_args_casegoto (data : List Nat) (s : PcodeSegment) :
    Except Err PcodeSegment :=
  let remainder := (s.offset + s.cursor) % 4
  let padded : Except Err PcodeSegment :=
    if remainder > 0 then pc_read_bytes s (4 - remainder).toNat
    else pure s
  match padded with
  | .error e => .error e
  | .ok s =>
    if pcode_left s < 4 then throw .bail else
    let count := read_i32 data (s.offset + s.cursor)
    case_goto_pairs count.toNat { s with cursor := s.cursor + 4 }

/-- The PCD_PUSHBYTES branch of `show_args`: a count byte followed by that
many argument bytes. -/
def show_args_pushbytes (data : List Nat) (s : PcodeSegment) :
    Except Err PcodeSegment :=
  if pcode_left s < 1 then throw .bail else
  let count := byteAt data (s.offset + s.cursor)
  pc_read_bytes { s with cursor := s.cursor + 1 } count

/-- The PCD_CALLFUNC branch of `show_args`: compact encoding reads a 1-byte
argument count and a 2-byte function index; wide encoding reads two 4-byte
fields. -/
def show_args_callfunc (small_code : Bool) (s : PcodeSegment) :
    Except Err PcodeSegment :=
  match pc_read_bytes s (if small_code then 1 else 4) with
  | .error e => .error e
  | .ok s => pc_read_bytes s (if small_code then 2 else 4)

/-- The default branch of `show_args`: `g_pcodes[opcode].num_args` 4-byte
integers, each preceded by `expect_pcode_data`. -/
def read_default_args : Nat → PcodeSegment → Except Err PcodeSegment
  | 0, s => pure s
  | k + 1, s =>
    match pc_read_bytes s 4 with
    | .error e => .error e
    | .ok s => read_default_args k s

/-- Function `show_args` of the source: the big dispatch on the decoded
opcode.  Opcode ids: 9-13 are PCD_LSPEC1DIRECT..PCD_LSPEC5DIRECT (a
small-code-sized special id followed by n 4-byte arguments), 167 PUSHBYTE,
168-172 LSPEC1DIRECTB..LSPEC5DIRECTB, 173 DELAYDIRECTB, 174 RANDOMDIRECTB,
175 PUSHBYTES, 176-179 PUSH2BYTES..PUSH5BYTES, 256 CASEGOTOSORTED,
351 CALLFUNC. -/
def show_args (data : List Nat) (small_code : Bool) (s : PcodeSegment) :
    Except Err PcodeSegment :=
  if one_arg_opcodes.contains s.opcode then
    pc_read_bytes s (if small_code then 1 else 4)
  else if s.opcode = 9 then
    match pc_read_bytes s (if small_code then 1 else 4) with
    | .error e => .error e
    | .ok s => pc_read_bytes s 4
  else if s.opcode = 10 then
    match pc_read_bytes s (if small_code then 1 else 4) with
    | .error e => .error e
    | .ok s => pc_read_bytes s 8
  else if s.opcode = 11 then
    match pc_read_bytes s (if small_code then 1 else 4) with
    | .error e => .error e
    | .ok s => pc_read_bytes s 12
  else if s.opcode = 12 then
    match pc_read_bytes s (if small_code then 1 else 4) with
    | .error e => .error e
    | .ok s => pc_read_bytes s 16
  else if s.opcode = 13 then
    match pc_read_bytes s (if small_code then 1 else 4) with
    | .error e => .error e
    | .ok s => pc_read_bytes s 20
  else if s.opcode = 168 then pc_read_bytes s 2
  else if s.opcode = 169 then pc_read_bytes s 3
  else if s.opcode = 170 then pc_read_bytes s 4
  else if s.opcode = 171 then pc_read_bytes s 5
  else if s.opcode = 172 then pc_read_bytes s 6
  else if s.opcode = 167 ∨ s.opcode = 173 then pc_read_bytes s 1
  else if s.opcode = 176 ∨ s.opcode = 174 then pc_read_bytes s 2
  else if s.opcode = 177 then pc_read_bytes s 3
  else if s.opcode = 178 then pc_read_bytes s 4
  else if s.opcode = 179 then pc_read_bytes s 5
  else if s.opcode = 175 then show_args_pushbytes data s
  else if s.opcode = 256 then show_args_casegoto data s
  else if s.opcode = 351 then show_args_callfunc small_code s
  else read_default_args (g_pcodes_num_args.getD s.opcode 0) s

/-- Function `show_instruction` of the source: decode the opcode, then the
arguments unless the opcode was invalid. -/
def show_instruction (data : List Nat) (small_code : Bool)
    (s : PcodeSegment) : Except Err PcodeSegment :=
  match show_opcode data small_code s with
  | .error e => .error e
  | .ok (_, s) => if s.invalid_opcode then pure s else show_args data small_code s

/-- The instruction loop of `show_pcode`; `fuel` bounds the number of
instructions decoded by the model. -/
def show_pcode_loop (data : List Nat) (small_code : Bool) :
    Nat → PcodeSegment → Except Err PcodeSegment
  | 0, s => if pcode_segment_end s then pure s else throw .fuelOut
  | n + 1, s =>
    if pcode_segment_end s then pure s
    else
      match show_instruction data small_code s with
      | .error e => .error e
      | .ok s => show_pcode_loop data small_code n s

/-- Function `show_pcode` of the source. -/
def show_pcode (fuel : Nat) (data : List Nat) (obj : ACSObject)
    (offset code_size : Int) : Except Err Unit :=
  match show_pcode_loop data obj.small_code fuel
      (init_pcode_segment offset code_size) with
  | .error e => .error e
  | .ok _ => pure ()

/-- Outcome of one script- or function-table entry: `shown` means the body
was disassembled, `imported` means the offset was 0 in the function table,
`warned` means the offset pointed outside the file, a warning was printed and
the body was skipped. -/
inductive EntryRes where
  | shown : EntryRes
  | imported : EntryRes
  | warned : EntryRes
deriving Repr, DecidableEq

/-- One iteration of the `show_func` loop of the source: the header line of
entry `i` is always printed (the entry record in the result); only an
in-file, nonzero offset leads to disassembly; an out-of-file offset prints a
warning without bailing. -/
def show_func_entry (fuel : Nat) (data : List Nat) (obj : ACSObject)
    (chunk : Chunk) (i : Nat) : Except Err (FuncEntry × EntryRes) :=
  let entry := read_func_entry data (chunk.data_offset + 8 * i)
  if offset_in_object_file data entry.offset then
    if entry.offset ≠ 0 then
      match calc_code_size fuel data obj entry.offset with
      | .error e => .error e
      | .ok sz =>
        match show_pcode fuel data obj entry.offset sz with
        | .error e => .error e
        | .ok _ => pure (entry, .shown)
    else pure (entry, .imported)
  else pure (entry, .warned)

/-- Sequential left-to-right run of a loop body over indices, stopping at the
first bail, as the C loops do. -/
def run_entries (f : Nat → Except Err α) : List Nat → Except Err (List α)
  | [] => pure []
  | i :: rest =>
    match f i with
    | .error e => .error e
    | .ok y =>
      match run_entries f rest with
      | .error e => .error e
      | .ok ys => pure (y :: ys)

/-- Function `show_func` of the source: `total_funcs = chunk.size / 8`
entries, processed in order. -/
def show_func (fuel : Nat) (data : List Nat) (obj : ACSObject)
    (chunk : Chunk) : Except Err (List (FuncEntry × EntryRes)) :=
  run_entries (show_func_entry fuel data obj chunk)
    (List.range (chunk.size.tdiv 8).toNat)

/-- The per-entry body result of the `show_sptr` loop: an in-file offset
leads to extent inference and disassembly (either can bail); an out-of-file
offset prints a warning, with no bail. -/
def show_sptr_entry_res (fuel : Nat) (data : List Nat) (obj : ACSObject)
    (entry : CommonAcseScriptEntry) : Except Err EntryRes :=
  if offset_in_object_file data entry.offset then
    match calc_code_size fuel data obj entry.offset with
    | .error e => .error e
    | .ok sz =>
      match show_pcode fuel data obj entry.offset sz with
      | .error e => .error e
      | .ok _ => pure .shown
  else pure .warned

/-- Function `show_sptr` of the source: walk the script-table entries of the
SPTR chunk from relative position `pos`; each entry prints its header line,
then either disassembles its body or, when its offset is outside the file,
prints a warning and moves on to the next entry. -/
def show_sptr (fuel : Nat) (data : List Nat) (obj : ACSObject)
    (chunk : Chunk) (pos : Int) :
    Except Err (List (CommonAcseScriptEntry × EntryRes)) :=
  if _h : pos < chunk.size then
    match read_acse_script_entry data obj.indirect_format chunk pos with
    | .error e => .error e
    | .ok entry =>
      match show_sptr_entry_res fuel data obj entry with
      | .error e => .error e
      | .ok r =>
        match show_sptr fuel data obj chunk
            (pos + acse_entry_size obj.indirect_format) with
        | .error e => .error e
        | .ok rest => pure ((entry, r) :: rest)
  else pure []
termination_by (chunk.size - pos).toNat
decreasing_by
  simp only [acse_entry_size]
  split <;> omega

/-- The `struct acs0_script_entry` of the source:
`(number: i32, offset: i32, num_param: i32)`. -/
structure Acs0ScriptEntry where
  number : Int
  offset : Int
  num_param : Int
deriving Repr, DecidableEq

/-- One iteration of the script loop of `show_script_directory`: the 12-byte
entry is guarded by `expect_data`; the header line is always printed; an
out-of-file code offset prints a warning and processing continues. -/
def show_acs0_script_entry (fuel : Nat) (data : List Nat) (obj : ACSObject)
    (i : Nat) : Except Err (Acs0ScriptEntry × EntryRes) :=
  let pos := obj.directory_offset + 4 + 12 * i
  if data_left data pos < 12 then throw .bail else
  let entry : Acs0ScriptEntry :=
    { number := read_i32 data pos, offset := read_i32 data (pos + 4),
      num_param := read_i32 data (pos + 8) }
  if offset_in_object_file data entry.offset then
    match calc_code_size fuel data obj entry.offset with
    | .error e => .error e
    | .ok sz =>
      match show_pcode fuel data obj entry.offset sz with
      | .error e => .error e
      | .ok _ => pure (entry, .shown)
  else pure (entry, .warned)

/-- Function `show_script_directory` of the source (the per-script part). -/
def show_script_directory (fuel : Nat) (data : List Nat) (obj : ACSObject) :
    Except Err (List (Acs0ScriptEntry × EntryRes)) :=
  if data_left data obj.directory_offset < 4 then throw .bail else
  let total_scripts := read_i32 data obj.directory_offset
  run_entries (show_acs0_script_entry fuel data obj)
    (List.range total_scripts.toNat)

/-- Function `show_string_directory` of the source.  The result is the list
of file offsets the loop hands to `show_string`, which dereferences
`object->data + offset` directly: the source checks the 4 bytes of each
directory slot with `expect_data` but performs no check at all on the offset
value read from the slot before the bytes at that offset are read and
printed. -/
def show_string_directory (data : List Nat) (obj : ACSObject) :
    Except Err (List Int) :=
  if data_left data obj.string_offset < 4 then throw .bail else
  let total_strings := read_i32 data obj.string_offset
  run_entries (fun i =>
      let pos := obj.string_offset + 4 + 4 * i
      if data_left data pos < 4 then throw .bail
      else pure (read_i32 data pos))
    (List.range total_strings.toNat)

/-- Function `decode_ch` of the source: the stored byte is XORed with the
32-bit key `string_offset * 157135 + offset / 2` (wraparound arithmetic) and
the `char` return value truncates the result to its low byte.  `offset` is
the character index within the string. -/
def decode_ch (string_offset k b : Nat) : Nat :=
  (b ^^^ ((string_offset * 157135 + k / 2) % 4294967296)) % 256

/-- Modelled from the spec (the repository contains only the decoder; the
encoder lives in the ACS compilers): character `k` of a string stored at
chunk-local offset `s` is stored as the byte
`plain XOR ((s * 157135 + k / 2) mod 256)`. -/
def spec_encode_ch (string_offset k b : Nat) : Nat :=
  (b ^^^ ((string_offset * 157135 + k / 2) % 256)) % 256

/-- STRE encoding of a whole byte string stored at chunk-local offset
`string_offset`, with `k` the index of the first character. -/
def spec_encode_str (string_offset : Nat) : Nat → List Nat → List Nat
  | _, [] => []
  | k, b :: bs =>
    spec_encode_ch string_offset k b ::
      spec_encode_str string_offset (k + 1) bs

/-- STRE decoding of a whole byte string, applying `decode_ch` of the source
to every character, as `show_string` does for an encoded string. -/
def decode_str (string_offset : Nat) : Nat → List Nat → List Nat
  | _, [] => []
  | k, b :: bs =>
    decode_ch string_offset k b :: decode_str string_offset (k + 1) bs

/-- Function `read_object_file_data` of the source: `size + 1` bytes are
allocated, the `size` file bytes are read, and `data[size] = 0` writes one
NUL sentinel directly after the last file byte. -/
def object_buffer (contents : List Nat) : List Nat :=
  contents ++ [0]

/-- A scan for a NUL terminator starting at index `i` (the `memchr` and
`strlen` scans of the source): the index of the first zero byte at or after
`i` (`i` plus the length of the remainder when there is none). -/
def nul_scan (data : List Nat) (i : Nat) : Nat :=
  i + (data.drop i).findIdx (fun b => b == 0)

/-
Concrete object files used by the theorems below.
-/

/-- A 24-byte indirect object file: primary header "ACS\0" with directory
offset 16; the hidden real header has the magic "ACSE" at byte 12 and the
chunk-offset field 100 at byte 8; the script directory at byte 16 declares 0
scripts. -/
def obj_file_a : List Nat :=
  [65, 67, 83, 0, 16, 0, 0, 0, 100, 0, 0, 0, 65, 67, 83, 69,
   0, 0, 0, 0, 0, 0, 0, 0]

/-- The descriptor the resolver produces for `obj_file_a`. -/
def obj_desc_a : ACSObject :=
  { format := .bigE, directory_offset := 16, string_offset := 20,
    real_header_offset := 8, chunk_offset := 100, indirect_format := true,
    small_code := false }

/-- Like `obj_file_a` but with the hidden chunk-offset field equal to 8, the
position of the real-header slot itself. -/
def obj_file_b : List Nat :=
  [65, 67, 83, 0, 16, 0, 0, 0, 8, 0, 0, 0, 65, 67, 83, 69,
   0, 0, 0, 0, 0, 0, 0, 0]

/-- The descriptor the resolver produces for `obj_file_b`. -/
def obj_desc_b : ACSObject :=
  { format := .bigE, directory_offset := 16, string_offset := 20,
    real_header_offset := 8, chunk_offset := 8, indirect_format := true,
    small_code := false }

/-- A 20-byte ACS0 file: directory offset 8, 0 scripts, string directory at
12 declaring one string whose offset slot holds 1000. -/
def obj_file_c : List Nat :=
  [65, 67, 83, 0, 8, 0, 0, 0, 0, 0, 0, 0, 1, 0, 0, 0, 232, 3, 0, 0]

/-- The descriptor the resolver produces for `obj_file_c`. -/
def obj_desc_c : ACSObject :=
  { format := .zero, directory_offset := 8, string_offset := 12,
    real_header_offset := 0, chunk_offset := 0, indirect_format := false,
    small_code := false }

/-- A 32-byte direct ACSE file: chunk section at byte 12 holding one SPTR
chunk of size 12 whose single (direct-layout) script entry has code offset
31, which lies inside the file but above the chunk-section offset 12. -/
def obj_file_d : List Nat :=
  [65, 67, 83, 69, 12, 0, 0, 0, 0, 0, 0, 0, 83, 80, 84, 82,
   12, 0, 0, 0, 1, 0, 0, 0, 31, 0, 0, 0, 0, 0, 0, 0]

/-- The descriptor the resolver produces for `obj_file_d`. -/
def obj_desc_d : ACSObject :=
  { format := .bigE, directory_offset := 12, string_offset := 0,
    real_header_offset := 0, chunk_offset := 12, indirect_format := false,
    small_code := false }

/-- A 16-byte direct ACSE file whose single chunk header at byte 8 declares
the size -8, so the walker advances by 8 + (-8) = 0 bytes. -/
def obj_file_e : List Nat :=
  [65, 67, 83, 69, 8, 0, 0, 0, 65, 65, 65, 65, 248, 255, 255, 255]

/-- The descriptor the resolver produces for `obj_file_e`. -/
def obj_desc_e : ACSObject :=
  { format := .bigE, directory_offset := 8, string_offset := 0,
    real_header_offset := 0, chunk_offset := 8, indirect_format := false,
    small_code := false }

/-- C1: after the resolver returns successfully, every populated offset field
should lie in [0, N); the indirect file `obj_file_a` is accepted although its
hidden chunk-offset field holds 100, outside the 24-byte file: the source
never bounds-checks the chunk offset it reads out of the real header. -/
theorem c1_indirect_chunk_offset_unchecked :
    resolve_object obj_file_a = .ok obj_desc_a ∧
    obj_desc_a.format = Format.bigE ∧
    obj_desc_a.indirect_format = true ∧
    obj_desc_a.chunk_offset = 100 ∧
    offset_in_object_file obj_file_a obj_desc_a.chunk_offset = false := by
  refine ⟨rfl, rfl, rfl, rfl, rfl⟩

/-- C2 counterexample: the resolver accepts the indirect file `obj_file_b`
even though its chunk offset (8) is not strictly below its real-header
offset (8), refuting the claim that such files are rejected and that the
ordering `chunk_offset < real_header_offset < directory_offset` holds for
every accepted indirect file. -/
theorem c2_ordering_counterexample :
    resolve_object obj_file_b = .ok obj_desc_b ∧
    obj_desc_b.indirect_format = true ∧
    ¬ (obj_desc_b.chunk_offset < obj_desc_b.real_header_offset) := by
  refine ⟨rfl, rfl, by decide⟩

/-- C3: the string-directory offsets are dereferenced without any bounds
check: on the 20-byte ACS0 file `obj_file_c` the resolver succeeds and
`show_string_directory` hands the out-of-file offset 1000 straight to
`show_string`, which reads the bytes at `object->data + 1000`. -/
theorem c3_string_directory_offset_unchecked :
    resolve_object obj_file_c = .ok obj_desc_c ∧
    show_string_directory obj_file_c obj_desc_c = .ok [1000] ∧
    offset_in_object_file obj_file_c 1000 = false := by
  refine ⟨rfl, rfl, rfl⟩

/-- C5: the chunk walker does not terminate on every declared size: on
`obj_file_e`, whose chunk declares size -8, the cursor is stuck at 8
(advancing by 8 + size = 0) and the walk never stops, for any number of
iterations. -/
theorem c5_chunk_walker_nonterminating :
    resolve_object obj_file_e = .ok obj_desc_e ∧
    read_i32 obj_file_e 12 = -8 ∧
    chunk_end_pos obj_file_e obj_desc_e = 16 ∧
    ∀ n : Nat, walk_cursor obj_file_e 16 n obj_desc_e.chunk_offset =
      .ok (some 8) := by
  refine ⟨rfl, rfl, rfl, ?_⟩
  intro n
  induction n with
  | zero => rfl
  | succ n ih => exact ih

/-- C7: in compact (`small_code`) mode the opcode decoder reads one byte `b`;
when `b` is below 240 the opcode is `b` and exactly one byte is consumed;
when `b` is at least 240 a second byte `c` is read, the opcode is `b + c` and
exactly two bytes are consumed. -/
theorem c7_small_code_opcode_fetch (data : List Nat) (s : PcodeSegment)
    (b c : Nat) (hb : byteAt data (s.offset + s.cursor) = b)
    (hc : byteAt data (s.offset + s.cursor + 1) = c) :
    (b < 240 → 1 ≤ pcode_left s →
      (show_opcode data true s).map (fun p => (p.1, p.2.cursor)) =
        .ok ((b : Int), s.cursor + 1)) ∧
    (240 ≤ b → 2 ≤ pcode_left s →
      (show_opcode data true s).map (fun p => (p.1, p.2.cursor)) =
        .ok (((b + c : Nat) : Int), s.cursor + 2)) := by
  constructor
  · intro hlt hleft
    have h1 : ¬ (pcode_left s < 1) := by omega
    have h2 : ¬ (240 ≤ b) := by omega
    simp only [show_opcode, eq_self_iff_true, if_true, if_neg h1, hb,
      if_neg h2]
    unfold validate_opcode
    split <;> rfl
  · intro hge hleft
    have h1 : ¬ (pcode_left s < 1) := by omega
    have h2 : ¬ (pcode_left { s with cursor := s.cursor + 1 } < 1) := by
      simp only [pcode_left] at hleft ⊢
      omega
    have hc2 : byteAt data (s.offset + (s.cursor + 1)) = c := by
      rw [← hc]
      congr 1
      ring
    simp only [show_opcode, eq_self_iff_true, if_true, if_neg h1, hb,
      if_pos hge, if_neg h2, hc2]
    have hadd : s.cursor + 1 + 1 = s.cursor + 2 := by ring
    rw [hadd]
    unfold validate_opcode
    split <;> rfl

/-- C7 witness: the bytes 240, 5 decode to opcode 245 with two bytes
consumed, and the single byte 239 decodes to opcode 239 with one byte
consumed. -/
theorem c7_small_code_opcode_fetch_witness :
    (show_opcode [240, 5] true (init_pcode_segment 0 2)).map
      (fun p => (p.1, p.2.cursor)) = .ok (245, 2) ∧
    (show_opcode [239] true (init_pcode_segment 0 1)).map
      (fun p => (p.1, p.2.cursor)) = .ok (239, 1) := by
  constructor
  · exact ((c7_small_code_opcode_fetch [240, 5] (init_pcode_segment 0 2)
      240 5 rfl rfl).2 (by decide) (by decide)).trans rfl
  · exact ((c7_small_code_opcode_fetch [239] (init_pcode_segment 0 1)
      239 0 rfl rfl).1 (by decide) (by decide)).trans rfl

/-- Decoding one character with the key of the source recovers the plain
byte from its spec-described encoding: the 32-bit key of `decode_ch` and the
8-bit key of the encoding agree on the low byte, and XOR is an involution. -/
theorem decode_ch_spec_encode_ch (string_offset k b : Nat) (hb : b < 256) :
    decode_ch string_offset k (spec_encode_ch string_offset k b) = b := by
  unfold decode_ch spec_encode_ch
  apply Nat.eq_of_testBit_eq
  intro i
  have h256 : (256 : Nat) = 2 ^ 8 := by norm_num
  have h32 : (4294967296 : Nat) = 2 ^ 32 := by norm_num
  rw [h256, h32]
  simp only [Nat.testBit_mod_two_pow, Nat.testBit_xor]
  by_cases hi : i < 8
  · have hi32 : i < 32 := by omega
    have d1 : decide (i < 8) = true := by simp [hi]
    have d2 : decide (i < 32) = true := by simp [hi32]
    rw [d1, d2]
    simp only [Bool.true_and]
    cases hbK : (string_offset * 157135 + k / 2).testBit i <;>
      cases hbb : b.testBit i <;> rfl
  · have hb8 : b.testBit i = false := by
      apply Nat.testBit_lt_two_pow
      calc b < 256 := hb
        _ = 2 ^ 8 := by norm_num
        _ ≤ 2 ^ i := Nat.pow_le_pow_right (by norm_num) (by omega)
    simp [hi, hb8]

/-- C8: STRE decoding (the `decode_ch` of the source applied to every
character, as `show_string` does) is a left inverse of the STRE encoding
described by the spec, for every byte string, every chunk-local string
offset, and every starting character index. -/
theorem c8_stre_decode_encode_id (string_offset : Nat) :
    ∀ (k : Nat) (s : List Nat), (∀ b ∈ s, b < 256) →
      decode_str string_offset k (spec_encode_str string_offset k s) = s := by
  intro k s
  induction s generalizing k with
  | nil => intro _; rfl
  | cons b bs ih =>
    intro h
    have hb : b < 256 := h b (by simp)
    have hbs : ∀ x ∈ bs, x < 256 := fun x hx => h x (by simp [hx])
    simp only [spec_encode_str, decode_str,
      decode_ch_spec_encode_ch string_offset k b hb, ih (k + 1) hbs]

/-- C8 witness: the string "ABC" (bytes 65 66 67) at chunk-local offset 20
survives the encode-decode round trip. -/
theorem c8_stre_decode_encode_id_witness :
    decode_str 20 0 (spec_encode_str 20 0 [65, 66, 67]) = [65, 66, 67] :=
  c8_stre_decode_encode_id 20 0 [65, 66, 67] (by decide)

/-- C10: the loader writes a NUL sentinel directly after the last file byte:
the buffer of a file of N bytes has length N + 1, its byte at index N is 0,
and every scan for a NUL terminator starting at an index inside the buffer
stops at index N at the latest, landing on a zero byte. -/
theorem c10_loader_nul_sentinel (f : List Nat) :
    (object_buffer f).length = f.length + 1 ∧
    byteAt (object_buffer f) (f.length : Int) = 0 ∧
    ∀ i : Nat, i ≤ f.length →
      nul_scan (object_buffer f) i ≤ f.length ∧
      byteAt (object_buffer f) ((nul_scan (object_buffer f) i : Nat) : Int)
        = 0 := by
  refine ⟨by simp [object_buffer], ?_, ?_⟩
  · unfold byteAt object_buffer
    rw [if_neg (by omega)]
    rw [Int.toNat_natCast]
    rw [List.getD_eq_getElem?_getD, List.getElem?_append_right (le_refl _)]
    simp
  · intro i hi
    simp only [object_buffer]
    have hdrop : (f ++ [0]).drop i = f.drop i ++ [0] :=
      List.drop_append_of_le_length hi
    have hlt : ((f ++ [0]).drop i).findIdx (fun b => b == 0) <
        ((f ++ [0]).drop i).length := by
      rw [List.findIdx_lt_length]
      exact ⟨0, by simp [hdrop], by simp⟩
    have hlen : ((f ++ [0]).drop i).length = f.length + 1 - i := by
      simp
    have hscan : nul_scan (f ++ [0]) i ≤ f.length := by
      unfold nul_scan
      omega
    refine ⟨hscan, ?_⟩
    unfold byteAt
    rw [if_neg (by omega), Int.toNat_natCast]
    have hbound : nul_scan (f ++ [0]) i < (f ++ [0]).length := by
      simp
      omega
    rw [List.getD_eq_getElem?_getD, List.getElem?_eq_getElem hbound]
    simp only [Option.getD_some]
    have hrepr : (f ++ [0])[nul_scan (f ++ [0]) i] =
        ((f ++ [0]).drop i)[((f ++ [0]).drop i).findIdx
          (fun b => b == 0)] := by
      rw [List.getElem_drop]
      rfl
    rw [hrepr]
    have hp := @List.findIdx_getElem _ (fun b => b == 0) ((f ++ [0]).drop i)
      hlt
    simpa using hp

/-- C10 witness: for the two-byte file 7 8, the buffer has length 3 and the
NUL scan from index 0 stops at index 2, the sentinel. -/
theorem c10_loader_nul_sentinel_witness :
    (object_buffer [7, 8]).length = 3 ∧
    nul_scan (object_buffer [7, 8]) 0 ≤ 2 := by
  exact ⟨(c10_loader_nul_sentinel [7, 8]).1,
    ((c10_loader_nul_sentinel [7, 8]).2.2 0 (by decide)).1⟩

/-- Code bytes of a segment starting at file offset 2 in wide mode: opcode
256 (CASEGOTOSORTED) occupies bytes 2-5; bytes 6-7 are padding; the case
count 1 sits at bytes 8-11 and the single case pair at 12-19. -/
def casegoto_data_mis : List Nat :=
  [0, 0, 0, 1, 0, 0, 0, 0, 1, 0, 0, 0, 5, 0, 0, 0, 9, 0, 0, 0]

/-- The segment state right after the 4-byte CASEGOTOSORTED opcode was read
from a segment based at file offset 2: the cursor, relative to the segment
base, is 4 - a multiple of 4 - but the absolute file position is 6. -/
def casegoto_seg_mis : PcodeSegment :=
  { offset := 2, cursor := 4, code_size := 18, opcode := 256,
    invalid_opcode := false }

/-- C6 counterexample: the cursor of `casegoto_seg_mis` is 4-aligned relative
to the segment base, yet the decoder consumes 2 padding bytes, because the
source aligns the absolute file position 2 + 4 = 6: the final cursor is
4 + 2 + 4 + 8 = 18 (2 padding bytes, the count 1 read at absolute offset 8,
one case pair).  Had zero padding been consumed, the count would have been
read at absolute offset 6, where the bytes spell 65536. -/
theorem c6_casegoto_relative_alignment_counterexample :
    casegoto_seg_mis.cursor % 4 = 0 ∧
    (casegoto_seg_mis.offset + casegoto_seg_mis.cursor) % 4 = 2 ∧
    show_args casegoto_data_mis false casegoto_seg_mis =
      .ok { casegoto_seg_mis with cursor := 18 } ∧
    read_i32 casegoto_data_mis 8 = 1 ∧
    read_i32 casegoto_data_mis
      (casegoto_seg_mis.offset + casegoto_seg_mis.cursor) = 65536 := by
  refine ⟨by decide, by decide, rfl, rfl, rfl⟩

/-- C6 amended: the CASEGOTOSORTED padding is computed on the absolute file
position: when `segment offset + cursor` is a multiple of 4 (whatever the
cursor is relative to the segment base), zero padding bytes are consumed and
the decoder goes straight to the 4-byte count followed by the case pairs. -/
theorem c6_casegoto_pad_absolute_alignment (data : List Nat)
    (small_code : Bool) (s : PcodeSegment) (hop : s.opcode = 256)
    (hal : (s.offset + s.cursor) % 4 = 0) :
    show_args data small_code s =
      (if pcode_left s < 4 then .error .bail
       else case_goto_pairs (read_i32 data (s.offset + s.cursor)).toNat
         { s with cursor := s.cursor + 4 }) := by
  obtain ⟨o, cu, cs, op, inv⟩ := s
  simp only at hop
  subst hop
  simp only at hal
  have hstep : show_args data small_code
      ⟨o, cu, cs, 256, inv⟩ =
      show_args_casegoto data ⟨o, cu, cs, 256, inv⟩ := rfl
  rw [hstep]
  unfold show_args_casegoto
  simp only
  rw [hal]
  norm_num
  rfl

/-- C6 witness: a segment based at file offset 0 with cursor 4 (absolute
position 4, a multiple of 4) consumes zero padding: the count 1 is read
directly at position 4 and the decode ends at cursor 16 = 4 + 4 + 8. -/
theorem c6_casegoto_pad_absolute_alignment_witness :
    ((0 : Int) + 4) % 4 = 0 ∧
    show_args [0, 0, 0, 0, 1, 0, 0, 0, 5, 0, 0, 0, 9, 0, 0, 0] false
      ({ offset := 0, cursor := 4, code_size := 16, opcode := 256,
         invalid_opcode := false }) =
      .ok ({ offset := 0, cursor := 16, code_size := 16, opcode := 256,
             invalid_opcode := false }) := by
  refine ⟨by decide, ?_⟩
  rw [c6_casegoto_pad_absolute_alignment
    [0, 0, 0, 0, 1, 0, 0, 0, 5, 0, 0, 0, 9, 0, 0, 0] false
    ({ offset := 0, cursor := 4, code_size := 16, opcode := 256,
       invalid_opcode := false }) rfl (by decide)]
  rfl

/-- Helper: `determine_object_offsets` only ever changes the `string_offset`
field of the descriptor. -/
theorem determine_object_offsets_fields (data : List Nat) (o obj : ACSObject)
    (h : determine_object_offsets data o = .ok obj) :
    obj.format = o.format ∧ obj.directory_offset = o.directory_offset ∧
    obj.real_header_offset = o.real_header_offset ∧
    obj.chunk_offset = o.chunk_offset ∧
    obj.indirect_format = o.indirect_format := by
  unfold determine_object_offsets at h
  split at h
  · split at h
    · cases h
    · split at h
      · cases h
      · cases h
        exact ⟨rfl, rfl, rfl, rfl, rfl⟩
  · cases h
    exact ⟨rfl, rfl, rfl, rfl, rfl⟩

/-- Helper: when `determine_format` reports an indirect file, the real
header offset is exactly 8 bytes below the directory offset (the slot layout
of the hidden real header). -/
theorem determine_format_indirect_layout (data : List Nat) (o : ACSObject)
    (hf : determine_format data = .ok o) (hi : o.indirect_format = true) :
    o.real_header_offset + 8 = o.directory_offset := by
  unfold determine_format at hf
  split at hf
  · cases hf
  · split at hf
    · cases hf
    · split at hf
      · cases hf
      · rename_i obj1 heq
        unfold determine_format_id at heq
        split at heq
        · cases heq
          split at hf <;> cases hf <;> simp_all [init_object]
        · split at heq
          · split at heq
            · split at heq
              · cases heq
              · cases heq
                split at hf <;> cases hf <;> simp_all <;> omega
            · cases heq
              split at hf <;> cases hf <;> simp_all [init_object]
          · cases heq
            split at hf <;> cases hf <;> simp_all [init_object]

/-- C2 amended: for every file the resolver accepts with indirect = true,
the real header offset lies exactly 8 bytes below the directory offset, so
`real_header_offset < directory_offset` always holds; the resolver imposes
no ordering between `chunk_offset` and `real_header_offset` (see the
counterexample). -/
theorem c2_amended_indirect_header_below_directory (data : List Nat)
    (obj : ACSObject) (h : resolve_object data = .ok obj)
    (hi : obj.indirect_format = true) :
    obj.real_header_offset + 8 = obj.directory_offset ∧
    obj.real_header_offset < obj.directory_offset := by
  suffices hs : obj.real_header_offset + 8 = obj.directory_offset by
    exact ⟨hs, by omega⟩
  unfold resolve_object at h
  split at h
  · cases h
  · rename_i o hf
    obtain ⟨_, hdir, hreal, _, hind⟩ :=
      determine_object_offsets_fields data o obj h
    rw [hdir, hreal]
    exact determine_format_indirect_layout data o hf (by rw [← hind]; exact hi)

/-- C2 amended witness: the accepted indirect file `obj_file_b` has its real
header at 8, directly below its directory at 16. -/
theorem c2_amended_indirect_header_below_directory_witness :
    resolve_object obj_file_b = .ok obj_desc_b ∧
    obj_desc_b.real_header_offset < obj_desc_b.directory_offset :=
  ⟨rfl, (c2_amended_indirect_header_below_directory obj_file_b obj_desc_b
    rfl rfl).2⟩

/-- C4 counterexample: on `obj_file_d` the target offset 31 is a valid
in-file script offset (the SPTR entry points there), yet `calc_code_size`
returns -19: the chunk-section offset 12 is taken as the end offset although
it is not strictly greater than the target, refuting both the
non-negativity claim and the strictly-greater claim for the chunk-offset
candidate. -/
theorem c4_negative_code_size_counterexample :
    resolve_object obj_file_d = .ok obj_desc_d ∧
    offset_in_object_file obj_file_d 31 = true ∧
    obj_desc_d.chunk_offset ≤ 31 ∧
    calc_code_size 100 obj_file_d obj_desc_d 31 = .ok (-19) ∧
    (-19 : Int) < 0 := by
  refine ⟨rfl, rfl, by decide, rfl, by decide⟩

/-- Helper: a fold of candidate steps that never increase the accumulator
never exceeds the initial end offset. -/
theorem foldl_candidate_le (f : Int → Nat → Int) (hf : ∀ e i, f e i ≤ e) :
    ∀ (l : List Nat) (e : Int), l.foldl f e ≤ e := by
  intro l
  induction l with
  | nil => intro e; exact le_refl _
  | cons a t ih => intro e; exact le_trans (ih (f e a)) (hf e a)

/-- Helper: the FUNC scan only lowers the end offset. -/
theorem calc_func_scan_le (data : List Nat) (chunk : Chunk)
    (offset e : Int) : calc_func_scan data chunk offset e ≤ e := by
  unfold calc_func_scan
  apply foldl_candidate_le
  intro acc i
  simp only [func_candidate]
  split
  · next hcond => exact le_of_lt hcond.2
  · exact le_refl _

/-- Helper: the script-directory scan only lowers the end offset. -/
theorem calc_dir_scan_le (data : List Nat) (directory_offset offset e : Int) :
    calc_dir_scan data directory_offset offset e ≤ e := by
  unfold calc_dir_scan
  apply foldl_candidate_le
  intro acc i
  simp only [acs0_candidate]
  split
  · next hcond => exact le_of_lt hcond.2
  · exact le_refl _

/-- Helper: the string-directory scan only lowers the end offset. -/
theorem calc_string_scan_le (data : List Nat) (string_offset offset e : Int) :
    calc_string_scan data string_offset offset e ≤ e := by
  unfold calc_string_scan
  apply foldl_candidate_le
  intro acc i
  simp only [string_candidate]
  split
  · next hcond => exact le_of_lt hcond.2
  · exact le_refl _

/-- Helper: the SPTR scan only lowers the end offset. -/
theorem calc_sptr_scan_le (data : List Nat) (indirect : Bool) (chunk : Chunk)
    (offset : Int) :
    ∀ (n : Nat) (pos e r : Int),
      calc_sptr_scan data indirect chunk offset n pos e = .ok r → r ≤ e := by
  intro n
  induction n with
  | zero =>
    intro pos e r h
    unfold calc_sptr_scan at h
    split at h
    · cases h
    · cases h
      exact le_refl _
  | succ n ih =>
    intro pos e r h
    unfold calc_sptr_scan at h
    split at h
    · cases hread : read_acse_script_entry data indirect chunk pos with
      | error e2 => rw [hread] at h; cases h
      | ok entry =>
        rw [hread] at h
        refine le_trans (ih (pos + acse_entry_size indirect) _ r h) ?_
        split
        · next hcond => exact le_of_lt hcond.2
        · exact le_refl _
    · cases h
      exact le_refl _

/-- Helper: the directory stage only lowers the end offset. -/
theorem calc_code_size_dirs_le (data : List Nat) (obj : ACSObject)
    (offset e2 : Int) : calc_code_size_dirs data obj offset e2 ≤ e2 := by
  unfold calc_code_size_dirs
  split
  · exact le_trans (calc_string_scan_le data obj.string_offset offset _)
      (calc_dir_scan_le data obj.directory_offset offset e2)
  · exact le_refl _

/-- Helper: the chunk-offset stage only lowers the end offset. -/
theorem calc_code_size_mid_le (data : List Nat) (obj : ACSObject)
    (offset e2 : Int) : calc_code_size_mid data obj offset e2 ≤ e2 := by
  unfold calc_code_size_mid
  split
  · next hcond =>
    exact le_trans (le_of_lt hcond.2)
      (calc_code_size_dirs_le data obj offset e2)
  · exact calc_code_size_dirs_le data obj offset e2

/-- Helper: the final stage only lowers the end offset. -/
theorem calc_code_size_tail_le (data : List Nat) (obj : ACSObject)
    (offset e2 : Int) : calc_code_size_tail data obj offset e2 ≤ e2 := by
  unfold calc_code_size_tail
  split
  · next hcond =>
    exact le_trans (le_of_lt hcond.2)
      (calc_code_size_mid_le data obj offset e2)
  · exact calc_code_size_mid_le data obj offset e2

/-- Helper: the SPTR stage starts at the file size and only lowers it. -/
theorem calc_code_size_sptr_part_le (fuel : Nat) (data : List Nat)
    (obj : ACSObject) (offset e1 : Int)
    (h : calc_code_size_sptr_part fuel data obj offset = .ok e1) :
    e1 ≤ (data.length : Int) := by
  unfold calc_code_size_sptr_part at h
  split at h
  · split at h
    · cases h
    · exact calc_sptr_scan_le data obj.indirect_format _ offset _ 0 _ e1 h
    · cases h
      exact le_refl _
  · cases h
    exact le_refl _

/-- Helper: the FUNC stage only lowers the end offset. -/
theorem calc_code_size_func_part_le (fuel : Nat) (data : List Nat)
    (obj : ACSObject) (offset e1 e2 : Int)
    (h : calc_code_size_func_part fuel data obj offset e1 = .ok e2) :
    e2 ≤ e1 := by
  unfold calc_code_size_func_part at h
  split at h
  · split at h
    · cases h
    · cases h
      exact calc_func_scan_le data _ offset e1
    · cases h
      exact le_refl _
  · cases h
    exact le_refl _

/-- C4 amended: every stage of `calc_code_size` starts from the file size N
and only lowers the end offset (the SPTR, FUNC and directory candidates only
when strictly above the target), so the inferred end offset is at most N and
`calc_code_size(o) + o ≤ N` always holds; but the chunk-offset and
directory-offset candidates are applied whenever they are below the current
end offset, with no comparison against the target, so the result can be
negative (see the counterexample; the disassembly loop then shows no
instructions). -/
theorem c4_amended_code_size_bound (fuel : Nat) (data : List Nat)
    (obj : ACSObject) (offset s : Int)
    (h : calc_code_size fuel data obj offset = .ok s) :
    s + offset ≤ (data.length : Int) := by
  unfold calc_code_size at h
  split at h
  · cases h
  · rename_i e1 h1
    split at h
    · cases h
    · rename_i e2 h2
      cases h
      have hb : calc_code_size_tail data obj offset e2 ≤ (data.length : Int) :=
        le_trans (calc_code_size_tail_le data obj offset e2)
          (le_trans (calc_code_size_func_part_le fuel data obj offset e1 e2 h2)
            (calc_code_size_sptr_part_le fuel data obj offset e1 h1))
      omega

/-- C4 witness: at the concrete input of the counterexample the bound holds:
-19 + 31 = 12, at most the file length 32. -/
theorem c4_amended_code_size_bound_witness :
    (-19 : Int) + 31 ≤ ((obj_file_d.length : Nat) : Int) :=
  c4_amended_code_size_bound 100 obj_file_d obj_desc_d 31 (-19) rfl

/-- Helper: sequentially running entries that all succeed yields the list of
their results. -/
theorem run_entries_ok {α : Type} (f : Nat → Except Err α) (g : Nat → α) :
    ∀ l : List Nat, (∀ i ∈ l, f i = .ok (g i)) →
      run_entries f l = .ok (l.map g) := by
  intro l
  induction l with
  | nil => intro _; rfl
  | cons a t ih =>
    intro h
    unfold run_entries
    rw [h a (by simp), ih (fun i hi => h i (by simp [hi]))]
    rfl

/-- Helper: a FUNC-table entry whose offset lies outside the file is
reported with a warning, its body is not disassembled, and no bail occurs. -/
theorem show_func_entry_warned (fuel : Nat) (data : List Nat)
    (obj : ACSObject) (chunk : Chunk) (i : Nat)
    (h : offset_in_object_file data
      (read_func_entry data (chunk.data_offset + 8 * i)).offset = false) :
    show_func_entry fuel data obj chunk i =
      .ok (read_func_entry data (chunk.data_offset + 8 * i),
        EntryRes.warned) := by
  unfold show_func_entry
  simp only [h]
  rfl

/-- Helper: when a full raw entry fits in the chunk, reading a script-table
entry succeeds and its offset field is the 32-bit value at byte 4 of the raw
entry, in both the direct and the indirect layout. -/
theorem read_acse_script_entry_offset (data : List Nat) (indirect : Bool)
    (chunk : Chunk) (pos : Int)
    (h : acse_entry_size indirect ≤ chunk_data_left chunk pos) :
    ∃ entry, read_acse_script_entry data indirect chunk pos = .ok entry ∧
      entry.offset = read_i32 data (chunk.data_offset + pos + 4) := by
  cases indirect with
  | false =>
    have h12 : ¬ (chunk_data_left chunk pos < 12) := by
      simp [acse_entry_size] at h
      omega
    refine ⟨{ number := read_i16 data (chunk.data_offset + pos),
              type := read_i16 data (chunk.data_offset + pos + 2),
              num_param := read_i32 data (chunk.data_offset + pos + 8),
              offset := read_i32 data (chunk.data_offset + pos + 4),
              real_entry_size := 12 }, ?_, rfl⟩
    unfold read_acse_script_entry
    simp only [Bool.false_eq_true, if_false, if_neg h12]
    rfl
  | true =>
    have h8 : ¬ (chunk_data_left chunk pos < 8) := by
      simp [acse_entry_size] at h
      omega
    refine ⟨{ number := read_i16 data (chunk.data_offset + pos),
              type := (byteAt data (chunk.data_offset + pos + 2) : Int),
              num_param := (byteAt data (chunk.data_offset + pos + 3) : Int),
              offset := read_i32 data (chunk.data_offset + pos + 4),
              real_entry_size := 8 }, ?_, rfl⟩
    unfold read_acse_script_entry
    simp only [if_true, if_neg h8]
    rfl

/-- Helper: a script-table entry whose offset lies outside the file yields a
warning result, with no bail and no disassembly. -/
theorem show_sptr_entry_res_warned (fuel : Nat) (data : List Nat)
    (obj : ACSObject) (entry : CommonAcseScriptEntry)
    (h : offset_in_object_file data entry.offset = false) :
    show_sptr_entry_res fuel data obj entry = .ok .warned := by
  unfold show_sptr_entry_res
  simp only [h, Bool.false_eq_true, if_false]
  rfl

/-- Helper: on a SPTR chunk of exactly m entries all of whose code offsets
lie outside the file, the walk reports every entry with a warning and
reaches the end of the table without bailing. -/
theorem show_sptr_all_out_of_range (fuel : Nat) (data : List Nat)
    (obj : ACSObject) (chunk : Chunk) (m : Nat)
    (hsize : chunk.size = acse_entry_size obj.indirect_format * (m : Int))
    (hout : ∀ k : Nat, k < m → offset_in_object_file data
      (read_i32 data (chunk.data_offset +
        acse_entry_size obj.indirect_format * (k : Int) + 4)) = false) :
    ∃ l, show_sptr fuel data obj chunk 0 = .ok l ∧ l.length = m ∧
      ∀ x ∈ l, x.2 = EntryRes.warned := by
  have hes : 8 ≤ acse_entry_size obj.indirect_format := by
    unfold acse_entry_size
    split <;> omega
  have key : ∀ (n j : Nat), j + n = m →
      ∃ l, show_sptr fuel data obj chunk
          (acse_entry_size obj.indirect_format * (j : Int)) = .ok l ∧
        l.length = n ∧ ∀ x ∈ l, x.2 = EntryRes.warned := by
    intro n
    induction n with
    | zero =>
      intro j hj
      have hjm : j = m := by omega
      subst hjm
      refine ⟨[], ?_, rfl, by simp⟩
      unfold show_sptr
      rw [dif_neg (by rw [hsize]; exact lt_irrefl _)]
      rfl
    | succ n ih =>
      intro j hj
      have hjm : j < m := by omega
      have hjI : (j : Int) < (m : Int) := by exact_mod_cast hjm
      have hlt : acse_entry_size obj.indirect_format * (j : Int) <
          chunk.size := by
        rw [hsize]
        exact (mul_lt_mul_left (by omega)).mpr hjI
      have hfit : acse_entry_size obj.indirect_format ≤
          chunk_data_left chunk
            (acse_entry_size obj.indirect_format * (j : Int)) := by
        unfold chunk_data_left
        rw [hsize]
        nlinarith [hes, hjI]
      obtain ⟨entry, hre, hoff⟩ := read_acse_script_entry_offset data
        obj.indirect_format chunk _ hfit
      have hw : offset_in_object_file data entry.offset = false := by
        rw [hoff]
        exact hout j hjm
      obtain ⟨l, hl, hlen, hwl⟩ := ih (j + 1) (by omega)
      refine ⟨(entry, .warned) :: l, ?_, by simp [hlen], ?_⟩
      · unfold show_sptr
        rw [dif_pos hlt, hre]
        dsimp only
        rw [show_sptr_entry_res_warned fuel data obj entry hw]
        dsimp only
        have harith : acse_entry_size obj.indirect_format * (j : Int) +
            acse_entry_size obj.indirect_format =
            acse_entry_size obj.indirect_format * ((j + 1 : Nat) : Int) := by
          push_cast
          ring
        rw [harith, hl]
        rfl
      · intro x hx
        rw [List.mem_cons] at hx
        rcases hx with rfl | hx
        · rfl
        · exact hwl x hx
  obtain ⟨l, hl, hlen, hwl⟩ := key m 0 (by omega)
  refine ⟨l, ?_, hlen, hwl⟩
  rw [← hl]
  norm_num

/-- Helper: an ACS0 script-directory entry whose offset lies outside the
file is reported with a warning and no bail. -/
theorem show_acs0_entry_warned (fuel : Nat) (data : List Nat)
    (obj : ACSObject) (i : Nat)
    (hfit : ¬ (data_left data
      (obj.directory_offset + 4 + 12 * (i : Int)) < 12))
    (h : offset_in_object_file data (read_i32 data
      (obj.directory_offset + 4 + 12 * (i : Int) + 4)) = false) :
    show_acs0_script_entry fuel data obj i =
      .ok ({ number := read_i32 data
               (obj.directory_offset + 4 + 12 * (i : Int)),
             offset := read_i32 data
               (obj.directory_offset + 4 + 12 * (i : Int) + 4),
             num_param := read_i32 data
               (obj.directory_offset + 4 + 12 * (i : Int) + 8) },
        EntryRes.warned) := by
  unfold show_acs0_script_entry
  simp only [if_neg hfit, h]
  rfl

/-- Helper: on an ACS0 script directory whose entries all fit in the file
and all of whose code offsets lie outside the file, every entry is reported
with a warning and processing reaches the end of the directory. -/
theorem show_script_directory_all_out_of_range (fuel : Nat)
    (data : List Nat) (obj : ACSObject)
    (ht : 0 ≤ read_i32 data obj.directory_offset)
    (hN : obj.directory_offset + 4 +
      12 * read_i32 data obj.directory_offset ≤ (data.length : Int))
    (hout : ∀ i : Nat, i < (read_i32 data obj.directory_offset).toNat →
      offset_in_object_file data (read_i32 data
        (obj.directory_offset + 4 + 12 * (i : Int) + 4)) = false) :
    show_script_directory fuel data obj =
      .ok ((List.range (read_i32 data obj.directory_offset).toNat).map
        (fun i : Nat => ({ number := read_i32 data
                             (obj.directory_offset + 4 + 12 * (i : Int)),
                           offset := read_i32 data
                             (obj.directory_offset + 4 + 12 * (i : Int) + 4),
                           num_param := read_i32 data
                             (obj.directory_offset + 4 + 12 * (i : Int) + 8) },
          EntryRes.warned))) := by
  simp only [show_script_directory]
  rw [if_neg (by unfold data_left; omega)]
  apply run_entries_ok
  intro i hi
  rw [List.mem_range] at hi
  apply show_acs0_entry_warned
  · unfold data_left
    omega
  · exact hout i hi

/-- C9: a script entry (in the SPTR chunk or the ACS0 script directory) or a
function entry (in the FUNC chunk) whose code offset is not in [0, N) is
still reported with its own header line (the entry record in the output), a
warning is emitted in place of its body, and processing continues with the
remaining entries of the same table instead of unwinding: on tables all of
whose entries are out of range, the walk returns successfully with one
warned record per entry. -/
theorem c9_out_of_range_entry_warned_and_skipped :
    (∀ (fuel : Nat) (data : List Nat) (obj : ACSObject) (chunk : Chunk),
      (∀ i : Nat, i < (chunk.size.tdiv 8).toNat →
        offset_in_object_file data
          (read_func_entry data (chunk.data_offset + 8 * i)).offset
            = false) →
      show_func fuel data obj chunk =
        .ok ((List.range (chunk.size.tdiv 8).toNat).map
          (fun i : Nat => (read_func_entry data (chunk.data_offset + 8 * i),
            EntryRes.warned)))) ∧
    (∀ (fuel : Nat) (data : List Nat) (obj : ACSObject) (chunk : Chunk)
        (m : Nat),
      chunk.size = acse_entry_size obj.indirect_format * (m : Int) →
      (∀ k : Nat, k < m → offset_in_object_file data
        (read_i32 data (chunk.data_offset +
          acse_entry_size obj.indirect_format * (k : Int) + 4)) = false) →
      ∃ l, show_sptr fuel data obj chunk 0 = .ok l ∧ l.length = m ∧
        ∀ x ∈ l, x.2 = EntryRes.warned) ∧
    (∀ (fuel : Nat) (data : List Nat) (obj : ACSObject),
      0 ≤ read_i32 data obj.directory_offset →
      obj.directory_offset + 4 +
        12 * read_i32 data obj.directory_offset ≤ (data.length : Int) →
      (∀ i : Nat, i < (read_i32 data obj.directory_offset).toNat →
        offset_in_object_file data (read_i32 data
          (obj.directory_offset + 4 + 12 * (i : Int) + 4)) = false) →
      show_script_directory fuel data obj =
        .ok ((List.range (read_i32 data obj.directory_offset).toNat).map
          (fun i : Nat => ({ number := read_i32 data
                               (obj.directory_offset + 4 + 12 * (i : Int)),
                             offset := read_i32 data
                               (obj.directory_offset + 4 + 12 * (i : Int) + 4),
                             num_param := read_i32 data
                               (obj.directory_offset + 4 + 12 * (i : Int) + 8) },
            EntryRes.warned)))) := by
  refine ⟨?_, ?_, ?_⟩
  · intro fuel data obj chunk hout
    unfold show_func
    apply run_entries_ok
    intro i hi
    rw [List.mem_range] at hi
    exact show_func_entry_warned fuel data obj chunk i (hout i hi)
  · intro fuel data obj chunk m hsize hout
    exact show_sptr_all_out_of_range fuel data obj chunk m hsize hout
  · intro fuel data obj ht hN hout
    exact show_script_directory_all_out_of_range fuel data obj ht hN hout

/-- Demo FUNC chunk body: one 8-byte entry with code offset 100, outside the
8-byte buffer. -/
def func_demo_data : List Nat := [0, 0, 0, 0, 100, 0, 0, 0]

/-- Demo SPTR chunk body (direct 12-byte layout): script 1 with code offset
100, outside the 12-byte buffer. -/
def sptr_demo_data : List Nat := [1, 0, 0, 0, 100, 0, 0, 0, 0, 0, 0, 0]

/-- Demo ACS0 buffer: directory at 0 with one script entry whose code offset
100 lies outside the 16-byte buffer. -/
def dir_demo_data : List Nat :=
  [1, 0, 0, 0, 0, 0, 0, 0, 100, 0, 0, 0, 0, 0, 0, 0]

/-- C9 witness: concrete one-entry tables whose single code offset 100 lies
outside the file in each of the three table kinds. -/
theorem c9_out_of_range_entry_warned_and_skipped_witness :
    show_func 5 func_demo_data init_object
        ({ name := nameFUNC, data_offset := 0, size := 8, type := .func }) =
      .ok [(read_func_entry func_demo_data 0, EntryRes.warned)] ∧
    (∃ l, show_sptr 5 sptr_demo_data init_object
        ({ name := nameSPTR, data_offset := 0, size := 12, type := .sptr })
        0 = .ok l ∧
      l.length = 1 ∧ ∀ x ∈ l, x.2 = EntryRes.warned) ∧
    show_script_directory 5 dir_demo_data init_object =
      .ok [({ number := 0, offset := 100, num_param := 0 },
        EntryRes.warned)] := by
  refine ⟨?_, ?_, ?_⟩
  · exact (c9_out_of_range_entry_warned_and_skipped.1 5 func_demo_data
      init_object _ (by decide)).trans rfl
  · exact c9_out_of_range_entry_warned_and_skipped.2.1 5 sptr_demo_data
      init_object _ 1 (by decide) (by decide)
  · exact (c9_out_of_range_entry_warned_and_skipped.2.2 5 dir_demo_data
      init_object (by decide) (by decide) (by decide)).trans rfl

end AcsObjDump
